import Mathlib

/-!
Shallow embedding of the sound_management repository's API route handlers.

The database is modelled as lists of rows (one list per Prisma table);
DB-managed surrogate keys that the handlers never read (the `id` column of
`EquipmentEvent`, `createdAt`/`updatedAt`/`reportedAt` timestamps) are not
modelled.  Generated cuid primary keys for created rows are passed in as
explicit parameters.  A Prisma `$transaction` whose callback throws rolls the
state back; this is modelled by `Except`: an `error` result leaves the
database argument untouched.  Handlers return the HTTP status code paired
with the database state after the request.
-/

namespace SoundManagement

/-- Row of the `Equipments` table (fields the route handlers read or write). -/
structure Equipment where
  id : String
  name : String
  category : String
  condition : String
  imageUrl : Option String
  stock : Int
deriving Repr, DecidableEq

/-- Row of the `Events` table. -/
structure Event where
  id : String
  title : String
  description : String
  date : Int
  location : String
  status : String
deriving Repr, DecidableEq

/-- Row of the `EquipmentEvent` join table (reservation of `quantity` units
of `equipmentId` by `eventId`). -/
structure EquipmentEvent where
  eventId : String
  equipmentId : String
  quantity : Int
deriving Repr, DecidableEq

/-- Repair status enum of a `DamagedEquipment` row; the zod schema
`z.enum(["pending", "in_progress", "completed"])` admits exactly these
three values. -/
inductive RepairStatus where
  | pending
  | in_progress
  | completed
deriving Repr, DecidableEq

/-- Row of the `DamagedEquipment` table. -/
structure DamagedEquipment where
  id : String
  equipmentId : String
  quantity : Int
  description : Option String
  repairStatus : RepairStatus
  repairedAt : Option Int
deriving Repr, DecidableEq

/-- Database state: one list of rows per table the handlers touch. -/
structure DB where
  equipments : List Equipment
  events : List Event
  equipmentEvents : List EquipmentEvent
  damaged : List DamagedEquipment
deriving Repr, DecidableEq

/-- Prisma `equipments.findUnique({ where: { id } })`. -/
def findEquipment (eqs : List Equipment) (x : String) : Option Equipment :=
  eqs.find? (fun e => e.id == x)

/-- Prisma `events.findUnique({ where: { id } })`. -/
def findEvent (db : DB) (x : String) : Option Event :=
  db.events.find? (fun e => e.id == x)

/-- Prisma `damagedEquipment.findUnique({ where: { id } })`. -/
def findDamaged (ds : List DamagedEquipment) (x : String) : Option DamagedEquipment :=
  ds.find? (fun d => d.id == x)

/-- Prisma `equipments.update({ where: { id: x }, data: { stock: { increment: delta } } })`
(a decrement is an increment by a negative delta). -/
def updateStock (eqs : List Equipment) (x : String) (delta : Int) : List Equipment :=
  eqs.map (fun e => if e.id == x then { e with stock := e.stock + delta } else e)

/-- Stock of the equipment with id `x`, if present. -/
def stockOf (eqs : List Equipment) (x : String) : Option Int :=
  (findEquipment eqs x).map (fun e => e.stock)

/-- Sequential stock updates, one per pair `(equipmentId, delta)`, as done by
the `for` loops in the event handlers. -/
def applyDeltas (eqs : List Equipment) (ds : List (String × Int)) : List Equipment :=
  ds.foldl (fun acc p => updateStock acc p.1 p.2) eqs

/-- Net stock change that a delta list causes on equipment `x`. -/
def deltaSum (ds : List (String × Int)) (x : String) : Int :=
  ((ds.filter (fun p => p.1 == x)).map Prod.snd).sum

theorem find_updateStock (eqs : List Equipment) (y : String) (d : Int) (x : String) :
    findEquipment (updateStock eqs y d) x =
      (findEquipment eqs x).map
        (fun e => if e.id == y then { e with stock := e.stock + d } else e) := by
  simp only [findEquipment]
  induction eqs with
  | nil => rfl
  | cons e t ih =>
    have hcons : updateStock (e :: t) y d =
        (if (e.id == y) = true then { e with stock := e.stock + d } else e) ::
          updateStock t y d := rfl
    have hid : ((if (e.id == y) = true then { e with stock := e.stock + d } else e).id == x)
        = (e.id == x) := by
      split <;> rfl
    by_cases hx : (e.id == x) = true
    · have h1 : List.find? (fun e => e.id == x) (e :: t) = some e :=
        List.find?_cons_of_pos _ hx
      have h2 : List.find? (fun e => e.id == x)
          ((if (e.id == y) = true then { e with stock := e.stock + d } else e) ::
            updateStock t y d)
          = some (if (e.id == y) = true then { e with stock := e.stock + d } else e) :=
        List.find?_cons_of_pos _ (by rw [hid]; exact hx)
      rw [hcons, h2, h1, Option.map_some']
    · have h1 : List.find? (fun e => e.id == x) (e :: t) = List.find? (fun e => e.id == x) t :=
        List.find?_cons_of_neg _ hx
      have h2 : List.find? (fun e => e.id == x)
          ((if (e.id == y) = true then { e with stock := e.stock + d } else e) ::
            updateStock t y d)
          = List.find? (fun e => e.id == x) (updateStock t y d) :=
        List.find?_cons_of_neg _ (by rw [hid]; exact hx)
      rw [hcons, h2, h1]
      exact ih

theorem stockOf_updateStock (eqs : List Equipment) (y : String) (d : Int) (x : String) :
    stockOf (updateStock eqs y d) x =
      (stockOf eqs x).map (fun s => if y == x then s + d else s) := by
  rw [stockOf, find_updateStock, stockOf]
  cases h : findEquipment eqs x with
  | none => rfl
  | some e =>
    have he : e.id = x := by
      have hp := List.find?_some h
      simpa [beq_iff_eq] using hp
    by_cases hxy : y = x
    · subst hxy
      simp [he]
    · have h1 : ¬ ((e.id == y) = true) := by
        rw [he, beq_iff_eq]
        exact fun hc => hxy hc.symm
      have h2 : ¬ ((y == x) = true) := by
        rw [beq_iff_eq]
        exact hxy
      simp only [Option.map_some']
      rw [if_neg h1, if_neg h2]

theorem stockOf_applyDeltas (ds : List (String × Int)) (eqs : List Equipment) (x : String) :
    stockOf (applyDeltas eqs ds) x = (stockOf eqs x).map (fun s => s + deltaSum ds x) := by
  induction ds generalizing eqs with
  | nil =>
    cases h : stockOf eqs x <;> simp [applyDeltas, deltaSum, h]
  | cons p t ih =>
    have hstep : applyDeltas eqs (p :: t) = applyDeltas (updateStock eqs p.1 p.2) t := rfl
    rw [hstep, ih, stockOf_updateStock]
    cases h : stockOf eqs x with
    | none => rfl
    | some s =>
      by_cases hp : (p.1 == x) = true
      · simp [deltaSum, List.filter_cons, hp]
        omega
      · simp [deltaSum, List.filter_cons, hp]

/-- Entry of the `equipments` array in an event request body. -/
structure EventItem where
  equipmentId : String
  quantity : Int
deriving Repr, DecidableEq

/-- Body of `POST /api/events` after JSON parsing.  The `date` field is kept
as the already-parsed timestamp; the zod refinement only checks parsability. -/
structure EventInput where
  title : String
  description : String
  date : Int
  location : String
  status : Option String
  equipments : Option (List EventItem)
deriving Repr, DecidableEq

/-- Zod `EventSchema.parse`: nonempty `title`/`description`/`location`,
optional `status` restricted to the enum (only present on the update route's
schema), and every requested quantity an integer of at least 1. -/
def validEventInput (i : EventInput) : Bool :=
  decide (1 ≤ i.title.length) && decide (1 ≤ i.description.length) &&
    decide (1 ≤ i.location.length) &&
    (match i.status with
     | none => true
     | some s => s == "upcoming" || s == "ongoing" || s == "completed") &&
    (match i.equipments with
     | none => true
     | some items => items.all (fun it => decide (1 ≤ it.quantity)))

/-- Validation loop of the event create/update transactions: for each
requested item, `findUnique` the equipment; missing equipment or
`equipment.stock < item.quantity` throws (aborting the transaction). -/
def validateItems (eqs : List Equipment) (items : List EventItem) : Except String Unit :=
  match items with
  | [] => .ok ()
  | it :: rest =>
    match findEquipment eqs it.equipmentId with
    | none => .error ("Equipment dengan ID " ++ it.equipmentId ++ " tidak ditemukan")
    | some e =>
      if e.stock < it.quantity then
        .error ("Stok " ++ e.name ++ " tidak cukup")
      else
        validateItems eqs rest

/-- New `EquipmentEvent` rows built by `createMany` for event `evId`. -/
def newReservations (evId : String) (items : List EventItem) : List EquipmentEvent :=
  items.map (fun it => { eventId := evId, equipmentId := it.equipmentId,
                         quantity := it.quantity })

/-- Transaction body of `POST /api/events`: create the event row; when a
nonempty `equipments` list is supplied, validate each entry, `createMany`
the reservations, then decrement each equipment's stock in a loop.
The `EquipmentEvent` table carries a unique index on
`(equipmentId, eventId)`, so `createMany` throws `P2002` (aborting the
transaction) when the request lists the same equipmentId twice; the inserted
rows all carry the fresh cuid `newId` as eventId, and in a database whose
reservations reference existing events no row with that eventId can
pre-exist (the preceding `events.create` would itself have aborted on a
primary-key collision), so batch-internal duplicates are the only conflict
source. -/
def createEventTx (db : DB) (newId : String) (i : EventInput) : Except String DB :=
  let db1 : DB := { db with
    events := db.events ++ [{ id := newId, title := i.title, description := i.description,
                              date := i.date, location := i.location,
                              status := "upcoming" }] }
  match i.equipments with
  | none => .ok db1
  | some items =>
    if items.length = 0 then .ok db1
    else
      match validateItems db1.equipments items with
      | .error m => .error m
      | .ok _ =>
        if (items.map (fun it => it.equipmentId)).Nodup then
          .ok { db1 with
            equipmentEvents := db1.equipmentEvents ++ newReservations newId items,
            equipments := applyDeltas db1.equipments
              (items.map (fun it => (it.equipmentId, -it.quantity))) }
        else
          .error "P2002: unique constraint failed on EquipmentEvent equipmentId eventId"

/-- Handler `POST /api/events`: zod failure gives 400; a throw inside the
transaction rolls the state back and gives 400; success gives 201. -/
def postEvents (db : DB) (newId : String) (i : EventInput) : Nat × DB :=
  if validEventInput i then
    match createEventTx db newId i with
    | .ok db2 => (201, db2)
    | .error _ => (400, db)
  else (400, db)

/-- Transaction body of `PUT /api/events/[id]`: update the event's scalar
fields; when an `equipments` list is supplied (possibly empty), fetch and
delete the old reservations, restore their quantities to stock, then for a
nonempty new list validate, `createMany`, and decrement stock.
As in `createEventTx`, the unique index on `(equipmentId, eventId)` makes
`createMany` throw `P2002` on a request listing the same equipmentId twice;
here the preceding `deleteMany` removed every row with this eventId, so
batch-internal duplicates are exactly the possible conflicts. -/
def updateEventTx (db : DB) (id : String) (i : EventInput) : Except String DB :=
  let db1 : DB := { db with
    events := db.events.map (fun e =>
      if e.id == id then
        { e with title := i.title, description := i.description, date := i.date,
                 location := i.location,
                 status := match i.status with | some s => s | none => e.status }
      else e) }
  match i.equipments with
  | none => .ok db1
  | some items =>
    let oldRows := db1.equipmentEvents.filter (fun r => r.eventId == id)
    let db2 : DB := { db1 with
      equipmentEvents := db1.equipmentEvents.filter (fun r => !(r.eventId == id)) }
    let db3 : DB := { db2 with
      equipments := applyDeltas db2.equipments
        (oldRows.map (fun r => (r.equipmentId, r.quantity))) }
    if items.length = 0 then .ok db3
    else
      match validateItems db3.equipments items with
      | .error m => .error m
      | .ok _ =>
        if (items.map (fun it => it.equipmentId)).Nodup then
          .ok { db3 with
            equipmentEvents := db3.equipmentEvents ++ newReservations id items,
            equipments := applyDeltas db3.equipments
              (items.map (fun it => (it.equipmentId, -it.quantity))) }
        else
          .error "P2002: unique constraint failed on EquipmentEvent equipmentId eventId"

/-- Handler `PUT /api/events/[id]`: zod failure gives 400, missing event 404,
transaction throw 400 with rollback, success 200. -/
def putEvent (db : DB) (id : String) (i : EventInput) : Nat × DB :=
  if validEventInput i then
    match findEvent db id with
    | none => (404, db)
    | some _ =>
      match updateEventTx db id i with
      | .ok db2 => (200, db2)
      | .error _ => (400, db)
  else (400, db)

/-- Transaction body of `DELETE /api/events/[id]`: restore the stock of every
reservation of the event, then delete the event (reservations cascade). -/
def deleteEventTx (db : DB) (id : String) : DB :=
  let rows := db.equipmentEvents.filter (fun r => r.eventId == id)
  { db with
    equipments := applyDeltas db.equipments (rows.map (fun r => (r.equipmentId, r.quantity))),
    events := db.events.filter (fun e => !(e.id == id)),
    equipmentEvents := db.equipmentEvents.filter (fun r => !(r.eventId == id)) }

/-- Handler `DELETE /api/events/[id]`: 404 when the event is missing,
otherwise run the restoring transaction and return 200. -/
def deleteEvent (db : DB) (id : String) : Nat × DB :=
  match findEvent db id with
  | none => (404, db)
  | some _ => (200, deleteEventTx db id)

/-- Handler `DELETE /api/events?ids=...` (bulk delete): 400 on an empty id
list, otherwise `deleteMany` the events; their reservations are removed by
the `ON DELETE CASCADE` foreign key.  No stock is restored. -/
def bulkDeleteEvents (db : DB) (ids : List String) : Nat × DB :=
  if ids.length = 0 then (400, db)
  else (200, { db with
    events := db.events.filter (fun e => !(ids.contains e.id)),
    equipmentEvents := db.equipmentEvents.filter (fun r => !(ids.contains r.eventId)) })

/-- Body of `POST /api/damaged-equipments` after JSON parsing. -/
structure DamagedInput where
  equipmentId : String
  quantity : Int
  description : Option String
deriving Repr, DecidableEq

/-- Zod `DamagedEquipmentSchema.safeParse`: nonempty `equipmentId` and an
integer quantity of at least 1. -/
def validDamagedInput (i : DamagedInput) : Bool :=
  decide (1 ≤ i.equipmentId.length) && decide (1 ≤ i.quantity)

/-- Handler `POST /api/damaged-equipments`: zod failure 400, missing
equipment 404, `equipment.stock < quantity` 400; otherwise create the record
with `repairStatus: "pending"` (the equipment row is not modified) and
return 201. -/
def postDamaged (db : DB) (newId : String) (i : DamagedInput) : Nat × DB :=
  if validDamagedInput i then
    match findEquipment db.equipments i.equipmentId with
    | none => (404, db)
    | some e =>
      if e.stock < i.quantity then (400, db)
      else (201, { db with
        damaged := db.damaged ++ [{ id := newId, equipmentId := i.equipmentId,
                                    quantity := i.quantity, description := i.description,
                                    repairStatus := .pending, repairedAt := none }] })
  else (400, db)

/-- Body of `PUT /api/damaged-equipments/[id]`: every field optional, the
`repairStatus` restricted by the zod enum to the three `RepairStatus`
values (any other string is rejected by `safeParse`, which this type makes
unrepresentable). -/
structure DamagedUpdateInput where
  quantity : Option Int
  description : Option String
  repairStatus : Option RepairStatus
deriving Repr, DecidableEq

/-- Zod `UpdateDamagedEquipmentSchema.safeParse`: a supplied quantity must be
an integer of at least 1. -/
def validDamagedUpdate (i : DamagedUpdateInput) : Bool :=
  match i.quantity with
  | none => true
  | some q => decide (1 ≤ q)

/-- The `updateData` record written by `PUT /api/damaged-equipments/[id]`
applied to the existing row: supplied fields overwrite, and a supplied
`repairStatus` of `completed` additionally sets `repairedAt` to now. -/
def applyDamagedUpdate (i : DamagedUpdateInput) (now : Int) (d : DamagedEquipment) :
    DamagedEquipment :=
  { d with
    quantity := match i.quantity with | some q => q | none => d.quantity,
    description := match i.description with | some s => some s | none => d.description,
    repairStatus := match i.repairStatus with | some s => s | none => d.repairStatus,
    repairedAt := match i.repairStatus with
                  | some .completed => some now
                  | _ => d.repairedAt }

/-- Handler `PUT /api/damaged-equipments/[id]`: zod failure 400, missing
record 404; when the supplied `repairStatus` is `completed` the linked
equipment's stock is incremented by the existing record's quantity
(unconditionally, with no check of the record's current status); then the
record is updated and 200 returned. -/
def putDamaged (db : DB) (id : String) (i : DamagedUpdateInput) (now : Int) : Nat × DB :=
  if validDamagedUpdate i then
    match findDamaged db.damaged id with
    | none => (404, db)
    | some existing =>
      let db1 : DB :=
        match i.repairStatus with
        | some .completed => { db with
            equipments := updateStock db.equipments existing.equipmentId existing.quantity }
        | _ => db
      (200, { db1 with
        damaged := db1.damaged.map (fun d =>
          if d.id == id then applyDamagedUpdate i now d else d) })
  else (400, db)

/-- JWT payload as used by `verifyToken` / `authenticateRequest`. -/
structure JWTPayload where
  sub : String
  email : Option String
  role : Option String
  userId : Option Int
deriving Repr, DecidableEq

/-- Authenticated user record produced by `authenticateRequest`. -/
structure AuthUser where
  userId : Int
  email : Option String
  role : Option String
deriving Repr, DecidableEq

/-- Result of a request through the `withAuth` wrapper: either the 401
rejection or the wrapped handler's response. -/
inductive AuthResult (α : Type) where
  | unauthorized : AuthResult α
  | handled : α → AuthResult α
deriving Repr, DecidableEq

/-- Function `authenticateRequest`: read the `jwt-access-token` cookie and
verify it; `verify` abstracts `verifyToken` (which returns the payload on
success and `null` on any verification failure).  The guard
`!verified || !verified.userId` rejects a missing payload and a missing
`userId`, and — because `0` is falsy in JavaScript — also a `userId` of 0. -/
def authenticateRequest (verify : String → Option JWTPayload)
    (cookie : Option String) : Option AuthUser :=
  match cookie with
  | none => none
  | some token =>
    match verify token with
    | none => none
    | some p =>
      match p.userId with
      | none => none
      | some uid =>
        if uid == 0 then none
        else some { userId := uid, email := p.email, role := p.role }

/-- Wrapper `withAuth`: 401 when `authenticateRequest` returns `null`,
otherwise invoke the wrapped handler with the authenticated user. -/
def withAuth {α : Type} (verify : String → Option JWTPayload)
    (handler : AuthUser → α) (cookie : Option String) : AuthResult α :=
  match authenticateRequest verify cookie with
  | none => .unauthorized
  | some u => .handled (handler u)

/-- Total quantity the request items ask for on equipment `x`. -/
def reqSum (items : List EventItem) (x : String) : Int :=
  ((items.filter (fun it => it.equipmentId == x)).map (fun it => it.quantity)).sum

/-- Total quantity the reservation rows hold on equipment `x`. -/
def rowSum (rows : List EquipmentEvent) (x : String) : Int :=
  ((rows.filter (fun r => r.equipmentId == x)).map (fun r => r.quantity)).sum

theorem deltaSum_neg_items (items : List EventItem) (x : String) :
    deltaSum (items.map (fun it => (it.equipmentId, -it.quantity))) x = -(reqSum items x) := by
  induction items with
  | nil => rfl
  | cons it rest ih =>
    by_cases hx : (it.equipmentId == x) = true <;>
      simp only [List.map_cons, deltaSum, reqSum, List.filter_cons, hx, if_true, if_false,
        Bool.false_eq_true, List.map_cons, List.sum_cons] at * <;> omega

theorem deltaSum_rows (rows : List EquipmentEvent) (x : String) :
    deltaSum (rows.map (fun r => (r.equipmentId, r.quantity))) x = rowSum rows x := by
  induction rows with
  | nil => rfl
  | cons r rest ih =>
    by_cases hx : (r.equipmentId == x) = true <;>
      simp only [List.map_cons, deltaSum, rowSum, List.filter_cons, hx, if_true, if_false,
        Bool.false_eq_true, List.map_cons, List.sum_cons] at * <;> omega

theorem rowSum_newReservations (evId : String) (items : List EventItem) (x : String) :
    rowSum (newReservations evId items) x = reqSum items x := by
  induction items with
  | nil => rfl
  | cons it rest ih =>
    by_cases hx : (it.equipmentId == x) = true <;>
      simp only [newReservations, List.map_cons, rowSum, reqSum, List.filter_cons, hx, if_true,
        if_false, Bool.false_eq_true, List.map_cons, List.sum_cons] at * <;> omega

theorem reqSum_eq_zero (items : List EventItem) (x : String)
    (h : ∀ it ∈ items, it.equipmentId ≠ x) : reqSum items x = 0 := by
  have hf : items.filter (fun it => it.equipmentId == x) = [] := by
    rw [List.filter_eq_nil_iff]
    intro it hm
    simpa [beq_iff_eq] using h it hm
  rw [reqSum, hf]
  rfl

theorem reqSum_of_nodup (items : List EventItem)
    (hnd : (items.map (fun it => it.equipmentId)).Nodup)
    (it : EventItem) (hmem : it ∈ items) : reqSum items it.equipmentId = it.quantity := by
  induction items with
  | nil => cases hmem
  | cons a rest ih =>
    rw [List.map_cons, List.nodup_cons] at hnd
    rcases List.mem_cons.mp hmem with hit | hit
    · subst hit
      have hz : reqSum rest it.equipmentId = 0 := by
        apply reqSum_eq_zero
        intro b hb hbe
        exact hnd.1 (hbe ▸ List.mem_map_of_mem (fun x => x.equipmentId) hb)
      simp only [reqSum, List.filter_cons, beq_self_eq_true, if_true, List.map_cons,
        List.sum_cons]
      rw [show ((rest.filter (fun b => b.equipmentId == it.equipmentId)).map
        (fun b => b.quantity)).sum = reqSum rest it.equipmentId from rfl, hz]
      omega
    · have hne : ¬ ((a.equipmentId == it.equipmentId) = true) := by
        rw [beq_iff_eq]
        intro hc
        exact hnd.1 (hc ▸ List.mem_map_of_mem (fun x => x.equipmentId) hit)
      simp only [reqSum, List.filter_cons, if_neg hne]
      exact ih hnd.2 hit

theorem validateItems_ok (eqs : List Equipment) (items : List EventItem)
    (h : ∀ it ∈ items, ∃ e, findEquipment eqs it.equipmentId = some e ∧
      it.quantity ≤ e.stock) :
    validateItems eqs items = .ok () := by
  induction items with
  | nil => rfl
  | cons it rest ih =>
    obtain ⟨e, he, hq⟩ := h it (List.mem_cons_self it rest)
    rw [validateItems, he]
    show (if e.stock < it.quantity then
        Except.error ("Stok " ++ e.name ++ " tidak cukup")
      else validateItems eqs rest) = Except.ok ()
    have hnlt : ¬ e.stock < it.quantity := by omega
    rw [if_neg hnlt]
    exact ih (fun a ha => h a (List.mem_cons_of_mem it ha))

theorem validateItems_err (eqs : List Equipment) (items : List EventItem)
    (h : ∃ it ∈ items, findEquipment eqs it.equipmentId = none ∨
      ∃ e, findEquipment eqs it.equipmentId = some e ∧ e.stock < it.quantity) :
    ∃ m, validateItems eqs items = .error m := by
  induction items with
  | nil =>
    obtain ⟨it, hm, _⟩ := h
    cases hm
  | cons it rest ih =>
    cases hfe : findEquipment eqs it.equipmentId with
    | none =>
      refine ⟨"Equipment dengan ID " ++ it.equipmentId ++ " tidak ditemukan", ?_⟩
      rw [validateItems, hfe]
    | some e =>
      by_cases hlt : e.stock < it.quantity
      · refine ⟨"Stok " ++ e.name ++ " tidak cukup", ?_⟩
        rw [validateItems, hfe]
        show (if e.stock < it.quantity then
            Except.error ("Stok " ++ e.name ++ " tidak cukup")
          else validateItems eqs rest) =
          Except.error ("Stok " ++ e.name ++ " tidak cukup")
        rw [if_pos hlt]
      · obtain ⟨a, ha, hbad⟩ := h
        rcases List.mem_cons.mp ha with hit | hit
        · subst hit
          rcases hbad with hnone | ⟨e2, he2, hlt2⟩
          · rw [hfe] at hnone
            cases hnone
          · rw [hfe] at he2
            cases he2
            exact absurd hlt2 hlt
        · obtain ⟨m, hm⟩ := ih ⟨a, hit, hbad⟩
          refine ⟨m, ?_⟩
          rw [validateItems, hfe]
          show (if e.stock < it.quantity then
              Except.error ("Stok " ++ e.name ++ " tidak cukup")
            else validateItems eqs rest) = Except.error m
          rw [if_neg hlt]
          exact hm

theorem findDamaged_update (ds : List DamagedEquipment) (id : String)
    (f : DamagedEquipment → DamagedEquipment) (hf : ∀ d, (f d).id = d.id) :
    findDamaged (ds.map (fun d => if d.id == id then f d else d)) id =
      (findDamaged ds id).map (fun d => if d.id == id then f d else d) := by
  simp only [findDamaged]
  induction ds with
  | nil => rfl
  | cons d t ih =>
    have hid : ((if (d.id == id) = true then f d else d).id == id) = (d.id == id) := by
      split <;> simp [hf]
    by_cases hx : (d.id == id) = true
    · have h1 : List.find? (fun a => a.id == id) (d :: t) = some d :=
        List.find?_cons_of_pos _ hx
      have h2 : List.find? (fun a => a.id == id)
          ((if (d.id == id) = true then f d else d) :: t.map (fun a => if a.id == id then f a else a))
          = some (if (d.id == id) = true then f d else d) :=
        List.find?_cons_of_pos _ (by rw [hid]; exact hx)
      rw [List.map_cons, h2, h1, Option.map_some']
    · have h1 : List.find? (fun a => a.id == id) (d :: t) = List.find? (fun a => a.id == id) t :=
        List.find?_cons_of_neg _ hx
      have h2 : List.find? (fun a => a.id == id)
          ((if (d.id == id) = true then f d else d) :: t.map (fun a => if a.id == id then f a else a))
          = List.find? (fun a => a.id == id) (t.map (fun a => if a.id == id then f a else a)) :=
        List.find?_cons_of_neg _ (by rw [hid]; exact hx)
      rw [List.map_cons, h2, h1]
      exact ih

theorem deltaSum_pos_items (items : List EventItem) (x : String) :
    deltaSum (items.map (fun it => (it.equipmentId, it.quantity))) x = reqSum items x := by
  induction items with
  | nil => rfl
  | cons it rest ih =>
    by_cases hx : (it.equipmentId == x) = true <;>
      simp only [List.map_cons, deltaSum, reqSum, List.filter_cons, hx, if_true, if_false,
        Bool.false_eq_true, List.map_cons, List.sum_cons] at * <;> omega

theorem reqSum_eq_rowSum_of_pairs (items : List EventItem) (rows : List EquipmentEvent)
    (x : String)
    (h : items.map (fun it => (it.equipmentId, it.quantity)) =
      rows.map (fun r => (r.equipmentId, r.quantity))) :
    reqSum items x = rowSum rows x := by
  rw [← deltaSum_pos_items, h, deltaSum_rows]

theorem find_append_last {α : Type} (p : α → Bool) (l : List α) (a : α) (ha : p a = true) :
    ∃ b, (l ++ [a]).find? p = some b := by
  induction l with
  | nil =>
    exact ⟨a, by rw [List.nil_append]; exact List.find?_cons_of_pos _ ha⟩
  | cons c t ih =>
    by_cases hc : p c = true
    · exact ⟨c, by rw [List.cons_append]; exact List.find?_cons_of_pos _ hc⟩
    · obtain ⟨b, hb⟩ := ih
      refine ⟨b, ?_⟩
      rw [List.cons_append, List.find?_cons_of_neg _ hc]
      exact hb

theorem postEvents_ok (db : DB) (newId : String) (i : EventInput) (items : List EventItem)
    (hv : validEventInput i = true) (heq : i.equipments = some items)
    (hnd : (items.map (fun it => it.equipmentId)).Nodup)
    (hok : ∀ it ∈ items, ∃ e, findEquipment db.equipments it.equipmentId = some e ∧
      it.quantity ≤ e.stock) :
    postEvents db newId i = (201, { db with
      events := db.events ++ [{ id := newId, title := i.title,
                                description := i.description,
                                date := i.date, location := i.location,
                                status := "upcoming" }],
      equipmentEvents := db.equipmentEvents ++ newReservations newId items,
      equipments := applyDeltas db.equipments
        (items.map (fun it => (it.equipmentId, -it.quantity))) }) := by
  have hvi := validateItems_ok db.equipments items hok
  by_cases hemp : items.length = 0
  · have hitems : items = [] := List.length_eq_zero.mp hemp
    subst hitems
    simp [postEvents, hv, createEventTx, heq, newReservations, applyDeltas]
  · simp [postEvents, hv, createEventTx, heq, hemp, hvi, hnd]

theorem postEvents_dup_aborts (db : DB) (newId : String) (i : EventInput)
    (items : List EventItem)
    (hv : validEventInput i = true) (heq : i.equipments = some items)
    (hnd : ¬ (items.map (fun it => it.equipmentId)).Nodup) :
    postEvents db newId i = (400, db) := by
  have hne : ¬ items.length = 0 := by
    intro h0
    rw [List.length_eq_zero.mp h0] at hnd
    exact hnd List.nodup_nil
  cases hvi : validateItems db.equipments items with
  | error m => simp [postEvents, hv, createEventTx, heq, hne, hvi]
  | ok u =>
    cases u
    simp [postEvents, hv, createEventTx, heq, hne, hvi, hnd]

theorem putEvent_ok (db : DB) (id : String) (i : EventInput) (items : List EventItem)
    (ev : Event)
    (hv : validEventInput i = true) (hev : findEvent db id = some ev)
    (heq : i.equipments = some items)
    (hnd : (items.map (fun it => it.equipmentId)).Nodup)
    (hval : validateItems
      (applyDeltas db.equipments
        ((db.equipmentEvents.filter (fun r => r.eventId == id)).map
          (fun r => (r.equipmentId, r.quantity)))) items = .ok ()) :
    (putEvent db id i).1 = 200 ∧
    ∀ x, stockOf (putEvent db id i).2.equipments x =
      (stockOf db.equipments x).map (fun s =>
        s + rowSum (db.equipmentEvents.filter (fun r => r.eventId == id)) x -
          reqSum items x) := by
  by_cases hemp : items.length = 0
  · have hitems : items = [] := List.length_eq_zero.mp hemp
    subst hitems
    have hput : putEvent db id i = (200, { db with
        events := db.events.map (fun e =>
          if e.id == id then
            { e with title := i.title, description := i.description, date := i.date,
                     location := i.location,
                     status := match i.status with | some s => s | none => e.status }
          else e),
        equipmentEvents := db.equipmentEvents.filter (fun r => !(r.eventId == id)),
        equipments := applyDeltas db.equipments
          ((db.equipmentEvents.filter (fun r => r.eventId == id)).map
            (fun r => (r.equipmentId, r.quantity))) }) := by
      simp [putEvent, hv, hev, updateEventTx, heq]
    rw [hput]
    refine ⟨rfl, ?_⟩
    intro x
    show stockOf (applyDeltas db.equipments
      ((db.equipmentEvents.filter (fun r => r.eventId == id)).map
        (fun r => (r.equipmentId, r.quantity)))) x = _
    rw [stockOf_applyDeltas, deltaSum_rows]
    cases stockOf db.equipments x <;> simp [reqSum]
  · have hput : putEvent db id i = (200, { db with
        events := db.events.map (fun e =>
          if e.id == id then
            { e with title := i.title, description := i.description, date := i.date,
                     location := i.location,
                     status := match i.status with | some s => s | none => e.status }
          else e),
        equipmentEvents := db.equipmentEvents.filter (fun r => !(r.eventId == id)) ++
          newReservations id items,
        equipments := applyDeltas
          (applyDeltas db.equipments
            ((db.equipmentEvents.filter (fun r => r.eventId == id)).map
              (fun r => (r.equipmentId, r.quantity))))
          (items.map (fun it => (it.equipmentId, -it.quantity))) }) := by
      simp [putEvent, hv, hev, updateEventTx, heq, hemp, hval, hnd]
    rw [hput]
    refine ⟨rfl, ?_⟩
    intro x
    show stockOf (applyDeltas (applyDeltas db.equipments
      ((db.equipmentEvents.filter (fun r => r.eventId == id)).map
        (fun r => (r.equipmentId, r.quantity))))
      (items.map (fun it => (it.equipmentId, -it.quantity)))) x = _
    rw [stockOf_applyDeltas, stockOf_applyDeltas, deltaSum_rows, deltaSum_neg_items]
    cases stockOf db.equipments x with
    | none => rfl
    | some s =>
      simp only [Option.map_some', Option.some.injEq]
      omega

/-- Sample database used to instantiate the theorems on concrete inputs. -/
def dbSample : DB :=
  { equipments := [{ id := "e1", name := "Mic", category := "audio", condition := "good",
                     imageUrl := none, stock := 5 },
                   { id := "e2", name := "Speaker", category := "audio", condition := "good",
                     imageUrl := none, stock := 3 }],
    events := [],
    equipmentEvents := [],
    damaged := [] }

/-- Sample valid event-creation request reserving 2 of e1 and 1 of e2. -/
def inputSample : EventInput :=
  { title := "Gig", description := "Live show", date := 0, location := "Hall",
    status := none, equipments := some [⟨"e1", 2⟩, ⟨"e2", 1⟩] }

/-- C1: a valid `POST /api/events` request whose (duplicate-free) equipments
list names only existing equipment, each with stock at least the requested
quantity, yields 201, appends one `EquipmentEvent` row per list entry with
exactly the requested quantity, and decrements each listed equipment's stock
by exactly that quantity; the whole update is the single transaction
`createEventTx`, applied atomically by `postEvents`. -/
theorem c1_post_events_reserves (db : DB) (newId : String) (i : EventInput)
    (items : List EventItem)
    (hv : validEventInput i = true)
    (heq : i.equipments = some items)
    (hnd : (items.map (fun it => it.equipmentId)).Nodup)
    (hok : ∀ it ∈ items, ∃ e, findEquipment db.equipments it.equipmentId = some e ∧
      it.quantity ≤ e.stock) :
    (postEvents db newId i).1 = 201 ∧
    (postEvents db newId i).2.equipmentEvents =
      db.equipmentEvents ++ newReservations newId items ∧
    ∀ it ∈ items, stockOf (postEvents db newId i).2.equipments it.equipmentId =
      (stockOf db.equipments it.equipmentId).map (fun s => s - it.quantity) := by
  rw [postEvents_ok db newId i items hv heq hnd hok]
  refine ⟨rfl, rfl, ?_⟩
  intro it hmem
  show stockOf (applyDeltas db.equipments
    (items.map (fun a => (a.equipmentId, -a.quantity)))) it.equipmentId = _
  rw [stockOf_applyDeltas, deltaSum_neg_items, reqSum_of_nodup items hnd it hmem]
  cases stockOf db.equipments it.equipmentId <;> rfl

/-- Witness instantiating `c1_post_events_reserves` on `dbSample`. -/
theorem c1_post_events_reserves_witness :
    (postEvents dbSample "ev1" inputSample).1 = 201 ∧
    (postEvents dbSample "ev1" inputSample).2.equipmentEvents =
      dbSample.equipmentEvents ++ newReservations "ev1" [⟨"e1", 2⟩, ⟨"e2", 1⟩] ∧
    ∀ it ∈ ([⟨"e1", 2⟩, ⟨"e2", 1⟩] : List EventItem),
      stockOf (postEvents dbSample "ev1" inputSample).2.equipments it.equipmentId =
        (stockOf dbSample.equipments it.equipmentId).map (fun s => s - it.quantity) :=
  c1_post_events_reserves dbSample "ev1" inputSample [⟨"e1", 2⟩, ⟨"e2", 1⟩]
    (by decide) rfl (by decide)
    (by
      intro it hmem
      rcases List.mem_cons.mp hmem with h1 | hmem2
      · subst h1
        exact ⟨_, rfl, by decide⟩
      · rcases List.mem_cons.mp hmem2 with h2 | h3
        · subst h2
          exact ⟨_, rfl, by decide⟩
        · cases h3)

/-- C5: a `POST /api/events` request (passing zod validation) whose equipments
list names a missing equipment or a quantity above the current stock makes the
transaction throw, so the handler returns 400 with the database unchanged. -/
theorem c5_post_events_aborts (db : DB) (newId : String) (i : EventInput)
    (items : List EventItem)
    (hv : validEventInput i = true)
    (heq : i.equipments = some items)
    (hbad : ∃ it ∈ items, findEquipment db.equipments it.equipmentId = none ∨
      ∃ e, findEquipment db.equipments it.equipmentId = some e ∧ e.stock < it.quantity) :
    postEvents db newId i = (400, db) := by
  obtain ⟨m, hm⟩ := validateItems_err db.equipments items hbad
  have hne : ¬ items.length = 0 := by
    obtain ⟨it, hmem, _⟩ := hbad
    intro h0
    rw [List.length_eq_zero.mp h0] at hmem
    cases hmem
  simp [postEvents, hv, createEventTx, heq, hne, hm]

/-- Witness instantiating `c5_post_events_aborts`: requesting 99 of e1. -/
theorem c5_post_events_aborts_witness :
    postEvents dbSample "ev9"
      { title := "Gig", description := "Live show", date := 0, location := "Hall",
        status := none, equipments := some [⟨"e1", 99⟩] } = (400, dbSample) :=
  c5_post_events_aborts dbSample "ev9" _ [⟨"e1", 99⟩] (by decide) rfl
    ⟨⟨"e1", 99⟩, List.mem_cons_self _ _, Or.inr ⟨_, rfl, by decide⟩⟩

/-- C2 counterexample: create an event reserving 2 of e1 (stock drops from 5
to 3), then delete it through the BULK delete endpoint.  The event is gone
but the stock stays 3: the bulk endpoint restores nothing, so the round trip
through bulk delete does not hold. -/
theorem c2_counterexample :
    (bulkDeleteEvents (postEvents dbSample "ev1" inputSample).2 ["ev1"]).1 = 200 ∧
    (bulkDeleteEvents (postEvents dbSample "ev1" inputSample).2 ["ev1"]).2.events = [] ∧
    stockOf (bulkDeleteEvents (postEvents dbSample "ev1" inputSample).2
      ["ev1"]).2.equipments "e1" = some 3 ∧
    stockOf dbSample.equipments "e1" = some 5 := by
  refine ⟨rfl, ?_, ?_, rfl⟩ <;> decide

/-- C2 amended: deletion through the single-event endpoint increments each
reserved equipment's stock by the reserved quantity, and creating an event
with reservations then deleting it through that endpoint restores every
stock; the bulk delete endpoint performs no restoration (see the
counterexample). -/
theorem c2_single_delete_restores :
    (∀ (db : DB) (id : String) (ev : Event), findEvent db id = some ev →
      (deleteEvent db id).1 = 200 ∧
      ∀ x, stockOf (deleteEvent db id).2.equipments x =
        (stockOf db.equipments x).map (fun s =>
          s + rowSum (db.equipmentEvents.filter (fun r => r.eventId == id)) x)) ∧
    (∀ (db : DB) (newId : String) (i : EventInput) (items : List EventItem),
      validEventInput i = true → i.equipments = some items →
      (∀ r ∈ db.equipmentEvents, (r.eventId == newId) = false) →
      (∀ it ∈ items, ∃ e, findEquipment db.equipments it.equipmentId = some e ∧
        it.quantity ≤ e.stock) →
      ∀ x, stockOf (deleteEvent (postEvents db newId i).2 newId).2.equipments x =
        stockOf db.equipments x) := by
  constructor
  · intro db id ev hev
    have hdel : deleteEvent db id = (200, deleteEventTx db id) := by
      simp [deleteEvent, hev]
    rw [hdel]
    refine ⟨rfl, ?_⟩
    intro x
    show stockOf (applyDeltas db.equipments
      ((db.equipmentEvents.filter (fun r => r.eventId == id)).map
        (fun r => (r.equipmentId, r.quantity)))) x = _
    rw [stockOf_applyDeltas, deltaSum_rows]
  · intro db newId i items hv heq hfresh hok x
    have hfilter1 : db.equipmentEvents.filter (fun r => r.eventId == newId) = [] := by
      rw [List.filter_eq_nil_iff]
      intro r hr
      simp [hfresh r hr]
    by_cases hnd : (items.map (fun it => it.equipmentId)).Nodup
    case neg =>
      rw [postEvents_dup_aborts db newId i items hv heq hnd]
      show stockOf (deleteEvent db newId).2.equipments x = stockOf db.equipments x
      cases hfe : findEvent db newId with
      | none => simp [deleteEvent, hfe]
      | some ev =>
        have hdel : deleteEvent db newId = (200, deleteEventTx db newId) := by
          simp [deleteEvent, hfe]
        rw [hdel]
        show stockOf (applyDeltas db.equipments
          ((db.equipmentEvents.filter (fun r => r.eventId == newId)).map
            (fun r => (r.equipmentId, r.quantity)))) x = stockOf db.equipments x
        rw [hfilter1]
        rfl
    case pos =>
    have hpost := postEvents_ok db newId i items hv heq hnd hok
    rw [hpost]
    have hfilter2 : (newReservations newId items).filter (fun r => r.eventId == newId) =
        newReservations newId items := by
      rw [List.filter_eq_self]
      intro r hr
      rw [newReservations, List.mem_map] at hr
      obtain ⟨a, _, rfl⟩ := hr
      simp
    obtain ⟨b, hb⟩ := find_append_last (fun e => e.id == newId) db.events
      { id := newId, title := i.title, description := i.description,
        date := i.date, location := i.location, status := "upcoming" } (by simp)
    have hfind : findEvent { db with
        events := db.events ++ [{ id := newId, title := i.title,
                                  description := i.description, date := i.date,
                                  location := i.location, status := "upcoming" }],
        equipmentEvents := db.equipmentEvents ++ newReservations newId items,
        equipments := applyDeltas db.equipments
          (items.map (fun it => (it.equipmentId, -it.quantity))) } newId = some b := hb
    show stockOf (deleteEvent _ newId).2.equipments x = stockOf db.equipments x
    have hdel : deleteEvent { db with
        events := db.events ++ [{ id := newId, title := i.title,
                                  description := i.description, date := i.date,
                                  location := i.location, status := "upcoming" }],
        equipmentEvents := db.equipmentEvents ++ newReservations newId items,
        equipments := applyDeltas db.equipments
          (items.map (fun it => (it.equipmentId, -it.quantity))) } newId =
        (200, deleteEventTx { db with
          events := db.events ++ [{ id := newId, title := i.title,
                                    description := i.description, date := i.date,
                                    location := i.location, status := "upcoming" }],
          equipmentEvents := db.equipmentEvents ++ newReservations newId items,
          equipments := applyDeltas db.equipments
            (items.map (fun it => (it.equipmentId, -it.quantity))) } newId) := by
      simp only [deleteEvent, hfind]
    rw [hdel]
    show stockOf (applyDeltas
      (applyDeltas db.equipments (items.map (fun it => (it.equipmentId, -it.quantity))))
      (((db.equipmentEvents ++ newReservations newId items).filter
        (fun r => r.eventId == newId)).map (fun r => (r.equipmentId, r.quantity)))) x =
      stockOf db.equipments x
    rw [List.filter_append, hfilter1, hfilter2, List.nil_append,
      stockOf_applyDeltas, stockOf_applyDeltas, deltaSum_neg_items, deltaSum_rows,
      rowSum_newReservations]
    cases stockOf db.equipments x with
    | none => rfl
    | some s =>
      simp only [Option.map_some', Option.some.injEq]
      omega

/-- Witness instantiating both halves of `c2_single_delete_restores` on
`dbSample`: deleting the freshly created event restores e1's stock to 5. -/
theorem c2_single_delete_restores_witness :
    stockOf (deleteEvent (postEvents dbSample "ev1" inputSample).2
      "ev1").2.equipments "e1" = stockOf dbSample.equipments "e1" :=
  c2_single_delete_restores.2 dbSample "ev1" inputSample [⟨"e1", 2⟩, ⟨"e2", 1⟩]
    (by decide) rfl (by intro r hr; cases hr)
    (by
      intro it hmem
      rcases List.mem_cons.mp hmem with h1 | hmem2
      · subst h1
        exact ⟨_, rfl, by decide⟩
      · rcases List.mem_cons.mp hmem2 with h2 | h3
        · subst h2
          exact ⟨_, rfl, by decide⟩
        · cases h3) "e1"

/-- C3: code behavior at the round-trip input.  Reporting damage of 2 units
of e1 returns 201 but leaves the stock field at 5 (the POST handler performs
no decrement), and setting repairStatus to completed then increments it to 7;
the report/complete round trip therefore ends with stock 7, not the
pre-report value 5 that the claim (and the handler's own "Restore stock back"
comment) describes. -/
theorem c3_roundtrip_inflates_stock :
    (postDamaged dbSample "d1" ⟨"e1", 2, none⟩).1 = 201 ∧
    stockOf (postDamaged dbSample "d1" ⟨"e1", 2, none⟩).2.equipments "e1" = some 5 ∧
    (putDamaged (postDamaged dbSample "d1" ⟨"e1", 2, none⟩).2 "d1"
      ⟨none, none, some .completed⟩ 100).1 = 200 ∧
    stockOf (putDamaged (postDamaged dbSample "d1" ⟨"e1", 2, none⟩).2 "d1"
      ⟨none, none, some .completed⟩ 100).2.equipments "e1" = some 7 := by
  refine ⟨rfl, ?_, rfl, ?_⟩ <;> decide

/-- C4: a valid `PUT /api/damaged-equipments/[id]` on an existing record whose
body sets repairStatus to completed returns 200, increments the linked
equipment's stock by the record's (old) quantity, and stores the updated
record with `repairedAt` set to the completion time. -/
theorem c4_put_completed_restores (db : DB) (id : String) (rec : DamagedEquipment)
    (i : DamagedUpdateInput) (now : Int)
    (hv : validDamagedUpdate i = true)
    (hrec : findDamaged db.damaged id = some rec)
    (hst : i.repairStatus = some .completed) :
    (putDamaged db id i now).1 = 200 ∧
    stockOf (putDamaged db id i now).2.equipments rec.equipmentId =
      (stockOf db.equipments rec.equipmentId).map (fun s => s + rec.quantity) ∧
    findDamaged (putDamaged db id i now).2.damaged id =
      some (applyDamagedUpdate i now rec) ∧
    (applyDamagedUpdate i now rec).repairedAt = some now := by
  have hput : putDamaged db id i now = (200, { db with
      equipments := updateStock db.equipments rec.equipmentId rec.quantity,
      damaged := db.damaged.map (fun d =>
        if d.id == id then applyDamagedUpdate i now d else d) }) := by
    simp [putDamaged, hv, hrec, hst]
  rw [hput]
  refine ⟨rfl, ?_, ?_, ?_⟩
  · show stockOf (updateStock db.equipments rec.equipmentId rec.quantity)
      rec.equipmentId = _
    rw [stockOf_updateStock]
    cases stockOf db.equipments rec.equipmentId with
    | none => rfl
    | some s => simp
  · show findDamaged (db.damaged.map (fun d =>
      if d.id == id then applyDamagedUpdate i now d else d)) id = _
    rw [findDamaged_update db.damaged id (applyDamagedUpdate i now) (fun d => rfl),
      hrec, Option.map_some', if_pos (List.find?_some hrec)]
  · simp [applyDamagedUpdate, hst]

/-- Database with one pending damaged-equipment record, for witnesses. -/
def dbDamaged : DB :=
  { equipments := [{ id := "e1", name := "Mic", category := "audio", condition := "good",
                     imageUrl := none, stock := 5 }],
    events := [],
    equipmentEvents := [],
    damaged := [{ id := "d1", equipmentId := "e1", quantity := 2, description := none,
                  repairStatus := .pending, repairedAt := none }] }

/-- Witness instantiating `c4_put_completed_restores` on `dbDamaged`. -/
theorem c4_put_completed_restores_witness :
    (putDamaged dbDamaged "d1" ⟨none, none, some .completed⟩ 100).1 = 200 ∧
    stockOf (putDamaged dbDamaged "d1"
        ⟨none, none, some .completed⟩ 100).2.equipments "e1" =
      (stockOf dbDamaged.equipments "e1").map (fun s => s + 2) ∧
    findDamaged (putDamaged dbDamaged "d1"
        ⟨none, none, some .completed⟩ 100).2.damaged "d1" =
      some (applyDamagedUpdate ⟨none, none, some .completed⟩ 100
        { id := "d1", equipmentId := "e1", quantity := 2, description := none,
          repairStatus := .pending, repairedAt := none }) ∧
    (applyDamagedUpdate ⟨none, none, some .completed⟩ 100
      { id := "d1", equipmentId := "e1", quantity := 2, description := none,
        repairStatus := .pending, repairedAt := none }).repairedAt = some 100 :=
  c4_put_completed_restores dbDamaged "d1"
    { id := "d1", equipmentId := "e1", quantity := 2, description := none,
      repairStatus := .pending, repairedAt := none }
    ⟨none, none, some .completed⟩ 100 (by decide) rfl rfl

/-- C9: `POST /api/damaged-equipments` (with a zod-valid body) returns 404
when the equipment is missing, 400 when the quantity exceeds the stock, and
otherwise 201 with a new record whose repairStatus is pending while the
equipments table is left untouched. -/
theorem c9_post_damaged_cases (db : DB) (newId : String) (i : DamagedInput)
    (hv : validDamagedInput i = true) :
    (findEquipment db.equipments i.equipmentId = none →
      postDamaged db newId i = (404, db)) ∧
    (∀ e, findEquipment db.equipments i.equipmentId = some e →
      e.stock < i.quantity → postDamaged db newId i = (400, db)) ∧
    (∀ e, findEquipment db.equipments i.equipmentId = some e →
      i.quantity ≤ e.stock →
      (postDamaged db newId i).1 = 201 ∧
      (postDamaged db newId i).2.equipments = db.equipments ∧
      (postDamaged db newId i).2.damaged = db.damaged ++
        [{ id := newId, equipmentId := i.equipmentId, quantity := i.quantity,
           description := i.description, repairStatus := .pending,
           repairedAt := none }]) := by
  refine ⟨?_, ?_, ?_⟩
  · intro h
    simp [postDamaged, hv, h]
  · intro e he hlt
    simp [postDamaged, hv, he, hlt]
  · intro e he hge
    have hnlt : ¬ e.stock < i.quantity := by omega
    simp [postDamaged, hv, he, hnlt]

/-- Witness instantiating the success case of `c9_post_damaged_cases`. -/
theorem c9_post_damaged_cases_witness :
    (postDamaged dbSample "d1" ⟨"e1", 2, none⟩).1 = 201 ∧
    (postDamaged dbSample "d1" ⟨"e1", 2, none⟩).2.equipments = dbSample.equipments ∧
    (postDamaged dbSample "d1" ⟨"e1", 2, none⟩).2.damaged = dbSample.damaged ++
      [{ id := "d1", equipmentId := "e1", quantity := 2,
         description := none, repairStatus := .pending, repairedAt := none }] :=
  (c9_post_damaged_cases dbSample "d1" ⟨"e1", 2, none⟩ (by decide)).2.2 _ rfl (by decide)

/-- Request body that only sets repairStatus to completed. -/
def completedUpdate : DamagedUpdateInput := ⟨none, none, some .completed⟩

/-- Apply `PUT /api/damaged-equipments/[id]` with `completedUpdate` `n` times
in a row to the same record. -/
def iterPutCompleted (id : String) (now : Int) : Nat → DB → DB
  | 0, db => db
  | n + 1, db => iterPutCompleted id now n (putDamaged db id completedUpdate now).2

/-- C10: the stock restoration of a completed-update is unconditional on the
record's current repairStatus, so `n` repeated completed-updates on the same
record increase the linked equipment's stock by `n` times the record's
quantity — the update is not idempotent. -/
theorem c10_completed_update_additive (db : DB) (id : String) (rec : DamagedEquipment)
    (now : Int) (n : Nat)
    (hrec : findDamaged db.damaged id = some rec) :
    stockOf (iterPutCompleted id now n db).equipments rec.equipmentId =
      (stockOf db.equipments rec.equipmentId).map
        (fun s => s + (n : Int) * rec.quantity) := by
  induction n generalizing db rec with
  | zero =>
    cases h : stockOf db.equipments rec.equipmentId <;> simp [iterPutCompleted, h]
  | succ n ih =>
    have hput : (putDamaged db id completedUpdate now).2 = { db with
        equipments := updateStock db.equipments rec.equipmentId rec.quantity,
        damaged := db.damaged.map (fun d =>
          if d.id == id then applyDamagedUpdate completedUpdate now d else d) } := by
      simp [putDamaged, hrec, completedUpdate, validDamagedUpdate]
    have hrec2 : findDamaged ((putDamaged db id completedUpdate now).2).damaged id =
        some (applyDamagedUpdate completedUpdate now rec) := by
      rw [hput]
      show findDamaged (db.damaged.map (fun d =>
        if d.id == id then applyDamagedUpdate completedUpdate now d else d)) id = _
      rw [findDamaged_update db.damaged id (applyDamagedUpdate completedUpdate now)
        (fun d => rfl), hrec, Option.map_some', if_pos (List.find?_some hrec)]
    have hstep := ih (putDamaged db id completedUpdate now).2
      (applyDamagedUpdate completedUpdate now rec) hrec2
    have hid : (applyDamagedUpdate completedUpdate now rec).equipmentId =
        rec.equipmentId := rfl
    have hqty : (applyDamagedUpdate completedUpdate now rec).quantity =
        rec.quantity := rfl
    rw [hid, hqty] at hstep
    show stockOf (iterPutCompleted id now n
      (putDamaged db id completedUpdate now).2).equipments rec.equipmentId = _
    rw [hstep, hput]
    show (stockOf (updateStock db.equipments rec.equipmentId rec.quantity)
      rec.equipmentId).map _ = _
    rw [stockOf_updateStock]
    cases stockOf db.equipments rec.equipmentId with
    | none => rfl
    | some s =>
      simp only [Option.map_some', Option.some.injEq, beq_self_eq_true, if_true]
      push_cast
      ring

/-- Witness instantiating `c10_completed_update_additive` with two repeated
completed-updates on `dbDamaged`: stock grows by 2 * 2. -/
theorem c10_completed_update_additive_witness :
    stockOf (iterPutCompleted "d1" 100 2 dbDamaged).equipments "e1" =
      (stockOf dbDamaged.equipments "e1").map
        (fun s => s + ((2 : Nat) : Int) * 2) :=
  c10_completed_update_additive dbDamaged "d1"
    { id := "d1", equipmentId := "e1", quantity := 2, description := none,
      repairStatus := .pending, repairedAt := none } 100 2 rfl

/-- Database whose damaged record is already completed, for C7. -/
def dbDone : DB :=
  { equipments := [{ id := "e1", name := "Mic", category := "audio", condition := "good",
                     imageUrl := none, stock := 5 }],
    events := [],
    equipmentEvents := [],
    damaged := [{ id := "d1", equipmentId := "e1", quantity := 2, description := none,
                  repairStatus := .completed, repairedAt := some 50 }] }

/-- C7 counterexample: a PUT setting repairStatus to pending on a record that
is already completed is accepted with 200 and moves the record back to
pending — the record leaves the completed state, and pending is not the
immediate successor of completed. -/
theorem c7_counterexample :
    (putDamaged dbDone "d1" ⟨none, none, some .pending⟩ 60).1 = 200 ∧
    findDamaged (putDamaged dbDone "d1"
        ⟨none, none, some .pending⟩ 60).2.damaged "d1" =
      some { id := "d1", equipmentId := "e1", quantity := 2, description := none,
             repairStatus := .pending, repairedAt := some 50 } := by
  refine ⟨rfl, ?_⟩
  decide

/-- C7 amended: the zod enum restricts repairStatus to the three values
pending, in_progress, completed, but the PUT handler enforces no transition
order: a valid update naming any of the three statuses is accepted (200) on
any existing record, whatever its current status, and the stored record then
carries exactly the requested status. -/
theorem c7_status_unconstrained (db : DB) (id : String) (rec : DamagedEquipment)
    (i : DamagedUpdateInput) (now : Int) (s : RepairStatus)
    (hv : validDamagedUpdate i = true)
    (hrec : findDamaged db.damaged id = some rec)
    (hst : i.repairStatus = some s) :
    (putDamaged db id i now).1 = 200 ∧
    findDamaged (putDamaged db id i now).2.damaged id =
      some (applyDamagedUpdate i now rec) ∧
    (applyDamagedUpdate i now rec).repairStatus = s := by
  have hd : (putDamaged db id i now).1 = 200 ∧ (putDamaged db id i now).2.damaged =
      db.damaged.map (fun d => if d.id == id then applyDamagedUpdate i now d else d) := by
    cases s <;> simp [putDamaged, hv, hrec, hst]
  refine ⟨hd.1, ?_, ?_⟩
  · rw [hd.2, findDamaged_update db.damaged id (applyDamagedUpdate i now) (fun d => rfl),
      hrec, Option.map_some', if_pos (List.find?_some hrec)]
  · simp [applyDamagedUpdate, hst]

/-- Witness instantiating `c7_status_unconstrained` on `dbDone` with target
status pending (a completed record accepts a move back to pending). -/
theorem c7_status_unconstrained_witness :
    (putDamaged dbDone "d1" ⟨none, none, some .pending⟩ 60).1 = 200 ∧
    findDamaged (putDamaged dbDone "d1"
        ⟨none, none, some .pending⟩ 60).2.damaged "d1" =
      some (applyDamagedUpdate ⟨none, none, some .pending⟩ 60
        { id := "d1", equipmentId := "e1", quantity := 2, description := none,
          repairStatus := .completed, repairedAt := some 50 }) ∧
    (applyDamagedUpdate ⟨none, none, some .pending⟩ 60
      { id := "d1", equipmentId := "e1", quantity := 2, description := none,
        repairStatus := .completed, repairedAt := some 50 }).repairStatus = .pending :=
  c7_status_unconstrained dbDone "d1"
    { id := "d1", equipmentId := "e1", quantity := 2, description := none,
      repairStatus := .completed, repairedAt := some 50 }
    ⟨none, none, some .pending⟩ 60 .pending (by decide) rfl rfl

/-- Verification oracle for the C8 counterexample: a single token verifying
successfully to a payload that carries `userId: 0`. -/
def verifyZero : String → Option JWTPayload :=
  fun t => if t == "tok0" then
    some { sub := "0", email := none, role := none, userId := some 0 }
  else none

/-- C8 counterexample: the cookie is present, verification succeeds, and the
payload carries a userId (namely 0) — yet `withAuth` answers 401 instead of
invoking the handler, because `!verified.userId` treats the number 0 as
falsy. -/
theorem c8_counterexample :
    verifyZero "tok0" =
      some { sub := "0", email := none, role := none, userId := some 0 } ∧
    withAuth verifyZero (fun u => u.userId) (some "tok0") = .unauthorized := by
  refine ⟨?_, ?_⟩ <;> decide

/-- C8 amended: `withAuth` returns 401 without invoking the handler when the
cookie is absent, the token fails verification, or the verified payload's
userId is missing or 0 (a falsy value); in every other case it invokes the
handler with that userId. -/
theorem c8_with_auth_guard (α : Type) (verify : String → Option JWTPayload)
    (handler : AuthUser → α) (cookie : Option String) :
    (cookie = none → withAuth verify handler cookie = .unauthorized) ∧
    (∀ t, cookie = some t → verify t = none →
      withAuth verify handler cookie = .unauthorized) ∧
    (∀ t p, cookie = some t → verify t = some p →
      (p.userId = none ∨ p.userId = some 0) →
      withAuth verify handler cookie = .unauthorized) ∧
    (∀ t p uid, cookie = some t → verify t = some p → p.userId = some uid →
      uid ≠ 0 →
      withAuth verify handler cookie =
        .handled (handler { userId := uid, email := p.email, role := p.role })) := by
  refine ⟨?_, ?_, ?_, ?_⟩
  · intro h
    subst h
    rfl
  · intro t hc hv
    subst hc
    simp [withAuth, authenticateRequest, hv]
  · intro t p hc hv hid
    subst hc
    rcases hid with h0 | h0 <;> simp [withAuth, authenticateRequest, hv, h0]
  · intro t p uid hc hv hid hne
    subst hc
    have hz : ¬ ((uid == 0) = true) := by
      rw [beq_iff_eq]
      exact hne
    simp [withAuth, authenticateRequest, hv, hid, hz]

/-- Verification oracle for the C8 witness: one token with userId 7. -/
def verifySeven : String → Option JWTPayload :=
  fun t => if t == "tok1" then
    some { sub := "1", email := none, role := none, userId := some 7 }
  else none

/-- Witness instantiating the handler-invocation case of
`c8_with_auth_guard`. -/
theorem c8_with_auth_guard_witness :
    withAuth verifySeven (fun u => u.userId) (some "tok1") = .handled 7 :=
  (c8_with_auth_guard Int verifySeven (fun u => u.userId)
    (some "tok1")).2.2.2 "tok1"
    { sub := "1", email := none, role := none, userId := some 7 } 7
    rfl (by decide) rfl (by decide)

/-- Database with one event reserving 2 of e1 (whose remaining stock is 3),
for the C6 witness. -/
def dbEvent : DB :=
  { equipments := [{ id := "e1", name := "Mic", category := "audio", condition := "good",
                     imageUrl := none, stock := 3 }],
    events := [{ id := "ev1", title := "Gig", description := "Live", date := 0,
                 location := "Hall", status := "upcoming" }],
    equipmentEvents := [{ eventId := "ev1", equipmentId := "e1", quantity := 2 }],
    damaged := [] }

/-- Resubmission of dbEvent's current reservation list, for the C6 witness. -/
def inputResub : EventInput :=
  { title := "Gig", description := "Live", date := 0, location := "Hall",
    status := none, equipments := some [⟨"e1", 2⟩] }

/-- C6: a valid `PUT /api/events/[id]` on an existing event that supplies a
duplicate-free equipments list (per-equipment quantities are only well
defined for such lists; a duplicated equipmentId makes `createMany` abort
with `P2002`) whose entries pass validation against the
stock-after-restoration returns 200, and every equipment's resulting stock
is its old stock plus the quantity previously reserved by this event minus
the newly requested quantity; consequently resubmitting the event's current
reservation list unchanged leaves every stock value unchanged. -/
theorem c6_put_event_stocks (db : DB) (id : String) (i : EventInput)
    (items : List EventItem) (ev : Event)
    (hv : validEventInput i = true) (hev : findEvent db id = some ev)
    (heq : i.equipments = some items)
    (hnd : (items.map (fun it => it.equipmentId)).Nodup)
    (hval : validateItems
      (applyDeltas db.equipments
        ((db.equipmentEvents.filter (fun r => r.eventId == id)).map
          (fun r => (r.equipmentId, r.quantity)))) items = .ok ()) :
    (putEvent db id i).1 = 200 ∧
    (∀ x, stockOf (putEvent db id i).2.equipments x =
      (stockOf db.equipments x).map (fun s =>
        s + rowSum (db.equipmentEvents.filter (fun r => r.eventId == id)) x -
          reqSum items x)) ∧
    (items.map (fun it => (it.equipmentId, it.quantity)) =
        (db.equipmentEvents.filter (fun r => r.eventId == id)).map
          (fun r => (r.equipmentId, r.quantity)) →
      ∀ x, stockOf (putEvent db id i).2.equipments x = stockOf db.equipments x) := by
  obtain ⟨h1, h2⟩ := putEvent_ok db id i items ev hv hev heq hnd hval
  refine ⟨h1, h2, ?_⟩
  intro hsame x
  rw [h2 x, reqSum_eq_rowSum_of_pairs items _ x hsame]
  cases stockOf db.equipments x with
  | none => rfl
  | some s =>
    simp only [Option.map_some', Option.some.injEq]
    omega

/-- Witness instantiating the resubmission case of `c6_put_event_stocks`. -/
theorem c6_put_event_stocks_witness :
    stockOf (putEvent dbEvent "ev1" inputResub).2.equipments "e1" =
      stockOf dbEvent.equipments "e1" :=
  (c6_put_event_stocks dbEvent "ev1" inputResub [⟨"e1", 2⟩]
    { id := "ev1", title := "Gig", description := "Live", date := 0,
      location := "Hall", status := "upcoming" }
    (by decide) rfl rfl (by decide) rfl).2.2 (by decide) "e1"

end SoundManagement
